import Mathlib

/-!
Verification of the MTECmqtt data-acquisition core against its specification.

The definitions below are a shallow embedding of the Python sources:
* `createRegisterClusters` / `getRegisterClusters` embed
  `MTECModbusClient._create_register_clusters` / `_get_register_clusters`
  (`mtecmqtt/modbus_client.py`).
* `decodeRawdata` embeds `MTECModbusClient._decode_rawdata`; the per-cluster
  part of `MTECModbusClient.read_modbus_data` is embedded by `processCluster`.
* `readMtecData` embeds `MtecCoordinator.read_mtec_data`
  (`mtecmqtt/mtec_coordinator.py`), with the modbus result map passed in as
  data (the bus is an external collaborator).
* `initRegisterMap` embeds `config.init_register_map` (`mtecmqtt/config.py`);
  `initRegisterMapOld` embeds the older variant (`src/mtecmqtt/config.py`).

Python runtime values are modelled by `PyVal` (ints as `Int`, floats as `Rat`,
strings as `String`, `None` as `pnone`); an uncaught Python exception is
modelled by `Except.error ()` where the source catches exceptions, and by
`Option.none` / `{}` results where the source returns falsy sentinel values.
-/

namespace MTECmqtt

/-- One row of the register catalog after defaults have been applied, as the
modbus client and the coordinator consume it (`REGISTER_MAP` values). -/
structure RegItem where
  name : String
  length : Nat
  type : Option String
  unit : String
  scale : Int
  writable : Bool
  mqtt : Option String
  group : Option String
deriving Repr, DecidableEq

/-- A Python runtime value as it occurs in decoded register data. -/
inductive PyVal where
  | pnone : PyVal
  | pint : Int → PyVal
  | pfloat : Rat → PyVal
  | pstr : String → PyVal
deriving Repr, DecidableEq

/-- Python truthiness for the values of `PyVal`. -/
def pyTruthy : PyVal → Bool
  | .pnone => false
  | .pint n => n != 0
  | .pfloat q => q != 0
  | .pstr s => s != ""

/-- The decoded-register dictionary `{name, value, unit}` built by
`_decode_rawdata`. -/
structure Decoded where
  name : String
  value : PyVal
  unit : String
deriving Repr, DecidableEq

/-! ### String helpers: `str.isnumeric`, `int(str)`, `sorted` -/

/-- Model of Python `str.isnumeric` for the ASCII register ids of the
catalog: nonempty and all decimal digits. -/
def isNumericStr (s : String) : Bool :=
  !s.data.isEmpty && s.data.all Char.isDigit

/-- Model of Python `int(s)` on a decimal digit string. -/
def digitsToNat (s : String) : Nat :=
  s.data.foldl (fun n c => n * 10 + (c.toNat - 48)) 0

/-- Lexicographic comparison of character lists by code point, as Python
compares strings. -/
def charListLt : List Char → List Char → Bool
  | [], [] => false
  | [], _ :: _ => true
  | _ :: _, [] => false
  | a :: as, b :: bs =>
    if a.toNat < b.toNat then true
    else if b.toNat < a.toNat then false
    else charListLt as bs

/-- Python `s < t` on strings. -/
def pyStrLt (s t : String) : Bool := charListLt s.data t.data

/-- Python `s <= t` on strings (total order: `¬ t < s`). -/
def pyStrLe (s t : String) : Bool := !(pyStrLt t s)

/-- Insert a string into a list sorted by `pyStrLe`. -/
def insertStr (x : String) : List String → List String
  | [] => [x]
  | y :: ys => if pyStrLe x y then x :: y :: ys else y :: insertStr x ys

/-- Model of Python `sorted` on a list of strings: the unique ascending
permutation under the lexicographic string order. -/
def sortStrings : List String → List String
  | [] => []
  | x :: xs => insertStr x (sortStrings xs)

/-! ### Cluster planner (`_create_register_clusters`, `_get_register_clusters`) -/

/-- A contiguous read span: `{"start": .., "length": .., "items": [..]}`. -/
structure Cluster where
  start : Nat
  length : Nat
  items : List RegItem
deriving Repr, DecidableEq

/-- One step of the clustering walk: the running cluster and the emitted
clusters, updated by one register id exactly as the loop body of
`_create_register_clusters` does. -/
def clusterStep (m : String → Option RegItem) :
    Cluster × List Cluster → String → Cluster × List Cluster :=
  fun (cl, acc) register =>
    if isNumericStr register then
      match m register with
      | some item =>
        let (cl, acc) :=
          if digitsToNat register > cl.start + cl.length then
            -- there is a gap
            if cl.start > 0 then  -- except for first cluster
              ({ start := digitsToNat register, length := 0, items := [] }, acc ++ [cl])
            else
              ({ start := digitsToNat register, length := 0, items := [] }, acc)
          else (cl, acc)
        ({ cl with length := cl.length + item.length, items := cl.items ++ [item] }, acc)
      | none => (cl, acc)  -- unknown register: skipped with a warning
    else (cl, acc)  -- ignore non-numeric pseudo registers

/-- Embedding of `MTECModbusClient._create_register_clusters`. -/
def createRegisterClusters (m : String → Option RegItem) (registers : List String) :
    List Cluster :=
  let (cl, acc) :=
    (sortStrings registers).foldl (clusterStep m) ({ start := 0, length := 0, items := [] }, [])
  if cl.start > 0 then acc ++ [cl] else acc

/-- Embedding of `MTECModbusClient._get_register_clusters`: the memoizing
wrapper, with the cache keyed by the request list. -/
def getRegisterClusters (m : String → Option RegItem)
    (cache : List (List String × List Cluster)) (registers : List String) :
    List Cluster × List (List String × List Cluster) :=
  match cache.lookup registers with
  | some cl => (cl, cache)
  | none =>
    let cl := createRegisterClusters m registers
    (cl, cache ++ [(registers, cl)])

/-- The greedy clustering walk stated from the spec's words, over the
address/item pairs in processing order: start a new cluster exactly when the
next register's address is strictly greater than
`currentClusterStart + currentClusterLength`. -/
def specGreedyClusters : List (Nat × RegItem) → Cluster → List Cluster
  | [], cl => if cl.start > 0 then [cl] else []
  | (a, it) :: rest, cl =>
    if a > cl.start + cl.length then
      (if cl.start > 0 then [cl] else []) ++
        specGreedyClusters rest { start := a, length := it.length, items := [it] }
    else
      specGreedyClusters rest
        { cl with length := cl.length + it.length, items := cl.items ++ [it] }

/-- The address/item pairs the planner walks: the requested ids in the
planner's processing order, with non-numeric ids and ids unknown to the
catalog dropped. -/
def plannerPairs (m : String → Option RegItem) (registers : List String) :
    List (Nat × RegItem) :=
  (sortStrings registers).filterMap fun r =>
    if isNumericStr r then (m r).map (fun it => (digitsToNat r, it)) else none

/-- Insert an id into a list sorted by numeric address value. -/
def insertByAddr (x : String) : List String → List String
  | [] => [x]
  | y :: ys => if digitsToNat x ≤ digitsToNat y then x :: y :: ys else y :: insertByAddr x ys

/-- Sort ids numerically by bus address, as the spec words it. -/
def sortByAddr : List String → List String
  | [] => []
  | x :: xs => insertByAddr x (sortByAddr xs)

/-- The cluster planner as the spec words it: filter out non-numeric ids,
sort the remaining ids numerically by address, then do the greedy walk
(identical gap rule, unknown ids skipped). -/
def specNumericSortClusters (m : String → Option RegItem) (registers : List String) :
    List Cluster :=
  let (cl, acc) :=
    (sortByAddr (registers.filter isNumericStr)).foldl (clusterStep m)
      ({ start := 0, length := 0, items := [] }, [])
  if cl.start > 0 then acc ++ [cl] else acc

/-! ### Binary decoder (`_decode_rawdata`) -/

/-- Split 16-bit words into bytes, big-endian within each word, words in
order (byteorder BIG, wordorder BIG). -/
def toBytes (words : List Nat) : List Nat :=
  words.flatMap fun w => [w / 256, w % 256]

/-- Read the first `n` bytes of the decode buffer; `none` models the decoder
raising on an exhausted buffer. -/
def readBytes (bytes : List Nat) (n : Nat) : Option (List Nat) :=
  if bytes.length < n then none else some (bytes.take n)

/-- Big-endian unsigned value of the first `n` bytes of the buffer. -/
def decodeUInt (bytes : List Nat) (n : Nat) : Option Nat :=
  (readBytes bytes n).map fun bs => bs.foldl (fun a b => a * 256 + b) 0

/-- Two's-complement reading of an unsigned value below `2 ^ bits`. -/
def toSigned (bits : Nat) (u : Nat) : Int :=
  if u ≥ 2 ^ (bits - 1) then (u : Int) - 2 ^ bits else (u : Int)

/-- Python `f"{n:02d}"`: decimal, zero-padded to two digits. -/
def fmt2 (n : Nat) : String :=
  if n < 10 then "0" ++ toString n else toString n

/-- Python `f"{n:08b}"`: binary, zero-padded to eight digits. -/
def fmt8b (n : Nat) : String :=
  let ds := Nat.toDigits 2 n
  String.mk (List.replicate (8 - ds.length) '0' ++ ds)

/-- A UTF-8 continuation byte. -/
def isContByte (b : Nat) : Prop := 128 ≤ b ∧ b < 192

instance (b : Nat) : Decidable (isContByte b) :=
  inferInstanceAs (Decidable (128 ≤ b ∧ b < 192))

/-- Strict UTF-8 decoding of a byte list, failing exactly on invalid UTF-8
(invalid start bytes, missing or out-of-range continuation bytes, overlong
encodings, surrogates, code points beyond 0x10FFFF), as Python
`bytes.decode()` does. The fuel argument only drives structural recursion
and is passed the buffer length, which every step stays below. -/
def utf8DecodeGo : Nat → List Nat → Option (List Char)
  | _, [] => some []
  | 0, _ :: _ => none  -- unreachable with fuel ≥ buffer length
  | fuel + 1, b0 :: rest =>
    if b0 < 128 then
      (utf8DecodeGo fuel rest).map fun cs => Char.ofNat b0 :: cs
    else if 194 ≤ b0 ∧ b0 ≤ 223 then
      match rest with
      | b1 :: rest2 =>
        if isContByte b1 then
          (utf8DecodeGo fuel rest2).map fun cs =>
            Char.ofNat ((b0 - 192) * 64 + (b1 - 128)) :: cs
        else none
      | [] => none
    else if 224 ≤ b0 ∧ b0 ≤ 239 then
      match rest with
      | b1 :: b2 :: rest3 =>
        if (if b0 = 224 then 160 ≤ b1 ∧ b1 < 192
            else if b0 = 237 then 128 ≤ b1 ∧ b1 < 160
            else isContByte b1) ∧ isContByte b2 then
          (utf8DecodeGo fuel rest3).map fun cs =>
            Char.ofNat ((b0 - 224) * 4096 + (b1 - 128) * 64 + (b2 - 128)) :: cs
        else none
      | _ => none
    else if 240 ≤ b0 ∧ b0 ≤ 244 then
      match rest with
      | b1 :: b2 :: b3 :: rest4 =>
        if (if b0 = 240 then 144 ≤ b1 ∧ b1 < 192
            else if b0 = 244 then 128 ≤ b1 ∧ b1 < 144
            else isContByte b1) ∧ isContByte b2 ∧ isContByte b3 then
          (utf8DecodeGo fuel rest4).map fun cs =>
            Char.ofNat ((b0 - 240) * 262144 + (b1 - 128) * 4096 +
              (b2 - 128) * 64 + (b3 - 128)) :: cs
        else none
      | _ => none
    else none

/-- `bytes.decode()`: strict UTF-8, `none` exactly on invalid UTF-8. -/
def bytesToStr (bs : List Nat) : Option String :=
  (utf8DecodeGo bs.length bs).map fun cs => String.mk cs

/-- The value produced by the wire-type dispatch of `_decode_rawdata`,
before scaling: `some .pnone` models `val` remaining Python `None` (a
`BYTE`/`BIT` entry with an unhandled length), plain `none` models an
exception or the unknown-type error branch. -/
def preScaleValue (raw : List Nat) (offset : Nat) (it : RegItem) : Option PyVal :=
  let bytes := toBytes (raw.drop offset)
  match it.type with
  | none => none  -- str(None) = "None" matches no branch: unknown type
  | some t =>
    if t = "U16" then
      (decodeUInt bytes 2).map fun u => .pint (Int.ofNat u)
    else if t = "I16" then
      (decodeUInt bytes 2).map fun u => .pint (toSigned 16 u)
    else if t = "U32" then
      (decodeUInt bytes 4).map fun u => .pint (Int.ofNat u)
    else if t = "I32" then
      (decodeUInt bytes 4).map fun u => .pint (toSigned 32 u)
    else if t = "BYTE" then
      if it.length = 1 then
        (readBytes bytes 2).map fun bs =>
          .pstr (String.intercalate " " (bs.map fmt2))
      else if it.length = 2 then
        (readBytes bytes 4).map fun bs =>
          .pstr (String.intercalate " " ((bs.take 2).map fmt2) ++ "  " ++
            String.intercalate " " ((bs.drop 2).map fmt2))
      else if it.length = 4 then
        (readBytes bytes 8).map fun bs =>
          .pstr (String.intercalate " " ((bs.take 4).map fmt2) ++ "  " ++
            String.intercalate " " ((bs.drop 4).map fmt2))
      else some .pnone
    else if t = "BIT" then
      if it.length = 1 then
        (readBytes bytes 1).map fun bs => .pstr (String.intercalate " " (bs.map fmt8b))
      else if it.length = 2 then
        (readBytes bytes 2).map fun bs => .pstr (String.intercalate " " (bs.map fmt8b))
      else some .pnone
    else if t = "DAT" then
      (readBytes bytes 6).map fun bs =>
        match bs with
        | [b0, b1, b2, b3, b4, b5] =>
          .pstr (fmt2 b0 ++ "-" ++ fmt2 b1 ++ "-" ++ fmt2 b2 ++ " " ++
            fmt2 b3 ++ ":" ++ fmt2 b4 ++ ":" ++ fmt2 b5)
        | _ => .pnone
    else if t = "STR" then
      -- decode_string slices without a bounds check: a short buffer is
      -- truncated, never an error; only invalid UTF-8 fails
      (bytesToStr (bytes.take (it.length * 2))).map .pstr
    else none  -- unknown type to decode

/-- Python `val /= scale` for an integer scale: numbers become floats,
anything else raises (modelled as `none`). -/
def pyDivByInt (v : PyVal) (s : Int) : Option PyVal :=
  match v with
  | .pint a => if s = 0 then none else some (.pfloat ((a : Rat) / (s : Rat)))
  | .pfloat a => if s = 0 then none else some (.pfloat (a / (s : Rat)))
  | _ => none

/-- Embedding of `MTECModbusClient._decode_rawdata`: decode at `offset`
within `raw` according to the catalog entry, then apply scaling; `none`
models the `{}` error return. -/
def decodeRawdata (raw : List Nat) (offset : Nat) (it : RegItem) : Option Decoded :=
  match preScaleValue raw offset it with
  | none => none
  | some v =>
    if pyTruthy v && decide (it.scale > 1) then
      match pyDivByInt v it.scale with
      | some v' => some { name := it.name, value := v', unit := it.unit }
      | none => none
    else some { name := it.name, value := v, unit := it.unit }

/-- Python dict assignment `d[k] = v` on an association list: replace the
value at the first occurrence of `k`, or append. -/
def dictSet {α : Type} (l : List (String × α)) (k : String) (v : α) :
    List (String × α) :=
  match l with
  | [] => [(k, v)]
  | (k', v') :: rest => if k' = k then (k', v) :: rest else (k', v') :: dictSet rest k v

/-- Truthiness of `item.get("type")` in `read_modbus_data`. -/
def typeTruthy : Option String → Bool
  | none => false
  | some s => s != ""

/-- The per-cluster item loop of `MTECModbusClient.read_modbus_data`: walk
the items, advancing the word offset by each item's length, decoding the
typed ones, and skipping (only) the registers whose decode failed. -/
def processClusterAux (start : Nat) (raw : List Nat) :
    List RegItem → Nat → List (String × Decoded) → List (String × Decoded)
  | [], _, data => data
  | it :: rest, offset, data =>
    let data' :=
      if typeTruthy it.type then
        match decodeRawdata raw offset it with
        | some d => dictSet data (toString (start + offset)) d
        | none => data  -- decoding error: this register stays absent
      else data  -- type==None means dummy
    processClusterAux start raw rest (offset + it.length) data'

/-- Decoding one fetched cluster into the result map. -/
def processCluster (cl : Cluster) (raw : List Nat) (data : List (String × Decoded)) :
    List (String × Decoded) :=
  processClusterAux cl.start raw cl.items 0 data

/-- The address/offset pairs of a cluster's items in walk order. -/
def itemOffsets : List RegItem → Nat → List (RegItem × Nat)
  | [], _ => []
  | it :: rest, offset => (it, offset) :: itemOffsets rest (offset + it.length)

/-- The successfully decoded entries of one cluster: typed items whose
decode did not fail, at their clusterwise register addresses. -/
def successEntries (start : Nat) (raw : List Nat) (items : List RegItem) (offset : Nat) :
    List (String × Decoded) :=
  (itemOffsets items offset).filterMap fun (it, off) =>
    if typeTruthy it.type then
      (decodeRawdata raw off it).map fun d => (toString (start + off), d)
    else none

/-- Apply a list of dict assignments in order. -/
def applyUpdates (data : List (String × Decoded)) (l : List (String × Decoded)) :
    List (String × Decoded) :=
  l.foldl (fun d (k, v) => dictSet d k v) data

/-! ### Derived-metric calculator (`MtecCoordinator.read_mtec_data`) -/

/-- Python `a + b` on decoded values: ints stay ints, a float makes a
float, anything else raises. -/
def pyAdd : PyVal → PyVal → Except Unit PyVal
  | .pint a, .pint b => .ok (.pint (a + b))
  | .pint a, .pfloat b => .ok (.pfloat ((a : Rat) + b))
  | .pfloat a, .pint b => .ok (.pfloat (a + (b : Rat)))
  | .pfloat a, .pfloat b => .ok (.pfloat (a + b))
  | _, _ => .error ()

/-- Python `a - b` on decoded values. -/
def pySub : PyVal → PyVal → Except Unit PyVal
  | .pint a, .pint b => .ok (.pint (a - b))
  | .pint a, .pfloat b => .ok (.pfloat ((a : Rat) - b))
  | .pfloat a, .pint b => .ok (.pfloat (a - (b : Rat)))
  | .pfloat a, .pfloat b => .ok (.pfloat (a - b))
  | _, _ => .error ()

/-- Python `a * b` on decoded values. -/
def pyMul : PyVal → PyVal → Except Unit PyVal
  | .pint a, .pint b => .ok (.pint (a * b))
  | .pint a, .pfloat b => .ok (.pfloat ((a : Rat) * b))
  | .pfloat a, .pint b => .ok (.pfloat (a * (b : Rat)))
  | .pfloat a, .pfloat b => .ok (.pfloat (a * b))
  | _, _ => .error ()

/-- Python true division `a / b`: always a float; zero divisor or
non-numeric operands raise. -/
def pyDiv : PyVal → PyVal → Except Unit PyVal
  | .pint a, .pint b => if b = 0 then .error () else .ok (.pfloat ((a : Rat) / (b : Rat)))
  | .pint a, .pfloat b => if b = 0 then .error () else .ok (.pfloat ((a : Rat) / b))
  | .pfloat a, .pint b => if b = 0 then .error () else .ok (.pfloat (a / (b : Rat)))
  | .pfloat a, .pfloat b => if b = 0 then .error () else .ok (.pfloat (a / b))
  | _, _ => .error ()

/-- Python `v > 0`: defined for numbers, raises otherwise. -/
def pyGtZero : PyVal → Except Unit Bool
  | .pint a => .ok (decide (a > 0))
  | .pfloat q => .ok (decide (q > 0))
  | _ => .error ()

/-- The rational magnitude of a numeric `PyVal` (0 for the rest). -/
def ratOfVal : PyVal → Rat
  | .pint n => (n : Rat)
  | .pfloat q => q
  | _ => 0

/-- One value of the per-poll `pvdata` snapshot: either a decoded register
dict or a raw derived scalar. -/
inductive Entry where
  | dict : Decoded → Entry
  | scalar : PyVal → Entry
deriving Repr, DecidableEq

/-- The `PVDATA_TYPE` snapshot of one group poll. -/
abbrev PvData := List (String × Entry)

/-- `isinstance(e, float | int)` on a snapshot value, returning the number. -/
def entryNum : Entry → Option PyVal
  | .scalar (.pint n) => some (.pint n)
  | .scalar (.pfloat q) => some (.pfloat q)
  | _ => none

/-- `data[r][VALUE]`: raises `KeyError` when the register is absent from
the decoded map. -/
def dataValue (data : List (String × Decoded)) (r : String) : Except Unit PyVal :=
  match data.lookup r with
  | some d => .ok d.value
  | none => .error ()

/-- `pvdata[k]`: raises `KeyError` when the key is absent. -/
def pvGet (pv : PvData) (k : String) : Except Unit Entry :=
  match pv.lookup k with
  | some e => .ok e
  | none => .error ()

/-- Truthiness of `item[Register.MQTT]`: the publish key, `None` and `""`
falsy. -/
def mqttKey : Option String → Option String
  | none => none
  | some s => if s = "" then none else some s

/-- The fixed derived-metric formulas of `read_mtec_data`: `some v` is an
assignment to the pseudo-register's publish key, `none` is the
unknown-pseudo-register warning branch (no assignment). -/
def computePseudo (data : List (String × Decoded)) (now : String) (pv : PvData)
    (register : String) : Except Unit (Option PyVal) :=
  if register = "consumption" then do
    let a ← dataValue data "11016"
    let b ← dataValue data "11000"
    let v ← pySub a b
    return some v
  else if register = "consumption-day" then do
    let a ← dataValue data "31005"
    let b ← dataValue data "31001"
    let c ← dataValue data "31004"
    let d ← dataValue data "31000"
    let e ← dataValue data "31003"
    let s1 ← pyAdd a b
    let s2 ← pyAdd s1 c
    let s3 ← pySub s2 d
    let v ← pySub s3 e
    return some v
  else if register = "autarky-day" then do
    let e ← pvGet pv "consumption_day"
    match entryNum e with
    | some w =>
      if ratOfVal w > 0 then do
        let a ← dataValue data "31001"
        let q ← pyDiv a w
        let r ← pySub (.pint 1) q
        let v ← pyMul (.pint 100) r
        return some v
      else return some (.pint 0)
    | none => return some (.pint 0)
  else if register = "ownconsumption-day" then do
    let g ← dataValue data "31005"
    let pos ← pyGtZero g
    if pos then do
      let a ← dataValue data "31000"
      let q ← pyDiv a g
      let r ← pySub (.pint 1) q
      let v ← pyMul (.pint 100) r
      return some v
    else return some (.pint 0)
  else if register = "consumption-total" then do
    let a ← dataValue data "31112"
    let b ← dataValue data "31104"
    let c ← dataValue data "31110"
    let d ← dataValue data "31102"
    let e ← dataValue data "31108"
    let s1 ← pyAdd a b
    let s2 ← pyAdd s1 c
    let s3 ← pySub s2 d
    let v ← pySub s3 e
    return some v
  else if register = "autarky-total" then do
    let e ← pvGet pv "consumption_total"
    match entryNum e with
    | some w =>
      if ratOfVal w > 0 then do
        let a ← dataValue data "31104"
        let q ← pyDiv a w
        let r ← pySub (.pint 1) q
        let v ← pyMul (.pint 100) r
        return some v
      else return some (.pint 0)
    | none => return some (.pint 0)
  else if register = "ownconsumption-total" then do
    let g ← dataValue data "31112"
    let pos ← pyGtZero g
    if pos then do
      let a ← dataValue data "31102"
      let q ← pyDiv a g
      let r ← pySub (.pint 1) q
      let v ← pyMul (.pint 100) r
      return some v
    else return some (.pint 0)
  else if register = "api-date" then
    return some (.pstr now)
  else
    return none  -- unknown calculated pseudo-register: warned, no assignment

/-- The post-assignment clamp of `read_mtec_data`: look the publish key up
(raising `KeyError` when it was never assigned) and replace a truthy
negative float by integer `0`. -/
def clampStep (pv : PvData) (mq : String) : Except Unit PvData := do
  let e ← pvGet pv mq
  match e with
  | .scalar (.pfloat q) =>
    if q < 0 then return dictSet pv mq (.scalar (.pint 0)) else return pv
  | _ => return pv

/-- One iteration of the register loop of `read_mtec_data`: exceptions
(`KeyError` on the register map or on the decoded data map, and failures
inside the formulas) propagate out to the surrounding try block. -/
def processRegister (m : String → Option RegItem) (data : List (String × Decoded))
    (now : String) (pv : PvData) (register : String) : Except Unit PvData :=
  match m register with
  | none => .error ()  -- KeyError on the register map
  | some item =>
    match mqttKey item.mqtt with
    | none => .ok pv  -- not published
    | some mq =>
      if isNumericStr register then
        match data.lookup register with
        | some d => .ok (dictSet pv mq (.dict d))
        | none => .error ()  -- KeyError: register absent from decoded map
      else
        match computePseudo data now pv register with
        | .error e => .error e
        | .ok (some v) => clampStep (dictSet pv mq (.scalar v)) mq
        | .ok none => clampStep pv mq  -- unknown pseudo-register: nothing was assigned

/-- Embedding of `MtecCoordinator.read_mtec_data` given the group's register
list and the decoded map returned by the modbus client: any exception inside
the loop is caught and turned into an empty poll result. -/
def readMtecData (m : String → Option RegItem) (registers : List String)
    (data : List (String × Decoded)) (now : String) : PvData :=
  match registers.foldlM (processRegister m data now) ([] : PvData) with
  | .ok pv => pv
  | .error _ => []  -- "Retrieved Modbus data is incomplete"

/-! ### Catalog loading (`config.init_register_map`) -/

/-- A raw catalog entry as parsed from `registers.yaml`: an outer `none`
means the key is absent, an inner `none` a YAML null value. -/
structure RawEntry where
  name : Option String := none
  length : Option (Option Nat) := none
  type : Option (Option String) := none
  unit : Option String := none
  scale : Option Int := none
  writable : Option Bool := none
  mqtt : Option (Option String) := none
  group : Option (Option String) := none
deriving Repr, DecidableEq

/-- A catalog entry after syntax checks and defaults. -/
structure CatEntry where
  name : String
  length : Option Nat
  type : Option String
  unit : String
  scale : Int
  writable : Bool
  mqtt : Option String
  group : Option String
deriving Repr, DecidableEq

/-- `val.get("name")` with Python truthiness: `none` when the mandatory
name is missing or empty. -/
def nameOf (e : RawEntry) : Option String :=
  match e.name with
  | some s => if s = "" then none else some s
  | none => none

/-- Defaults of the current `init_register_map`: applied only to keys that
are absent (`if param not in item`). -/
def fillDefaults (nm : String) (e : RawEntry) : CatEntry :=
  { name := nm
    length := e.length.getD none
    type := e.type.getD none
    unit := e.unit.getD ""
    scale := e.scale.getD 1
    writable := e.writable.getD false
    mqtt := e.mqtt.getD none
    group := e.group.getD none }

/-- Defaults of the older `init_register_map` variant: applied to keys whose
value is falsy (`if not item.get(p[0])`). -/
def fillDefaultsOld (nm : String) (e : RawEntry) : CatEntry :=
  { name := nm
    length := match e.length with
      | some (some n) => if n = 0 then none else some n
      | _ => none
    type := match e.type with
      | some (some t) => if t = "" then none else some t
      | _ => none
    unit := e.unit.getD ""
    scale := match e.scale with
      | some s => if s = 0 then 1 else s
      | none => 1
    writable := e.writable.getD false
    mqtt := match e.mqtt with
      | some (some s) => if s = "" then none else some s
      | _ => none
    group := match e.group with
      | some (some g) => if g = "" then none else some g
      | _ => none }

/-- Accumulate a first-seen truthy group value. -/
def addGroup (groups : List String) (g : Option String) : List String :=
  match g with
  | some s => if s ≠ "" ∧ s ∉ groups then groups ++ [s] else groups
  | none => groups

/-- The entry loop of the current `init_register_map`: the `error` flag is
initialized once before the loop and never reset inside it. -/
def initRegisterMapGo (entries : List (String × RawEntry))
    (regMap : List (String × CatEntry)) (groups : List String) (err : Bool) :
    List (String × CatEntry) × List String :=
  match entries with
  | [] => (regMap, groups)
  | (key, val) :: rest =>
    match nameOf val with
    | none => initRegisterMapGo rest regMap groups true  -- missing mandatory parameter
    | some nm =>
      if err then initRegisterMapGo rest regMap groups err
      else
        let item := fillDefaults nm val
        initRegisterMapGo rest (regMap ++ [(key, item)]) (addGroup groups item.group) err

/-- Embedding of `config.init_register_map` (current variant,
`mtecmqtt/config.py`). -/
def initRegisterMap (entries : List (String × RawEntry)) :
    List (String × CatEntry) × List String :=
  initRegisterMapGo entries [] [] false

/-- The entry loop of the older `init_register_map` variant
(`src/mtecmqtt/config.py`), where `error` is reset for every entry. -/
def initRegisterMapOldGo (entries : List (String × RawEntry))
    (regMap : List (String × CatEntry)) (groups : List String) :
    List (String × CatEntry) × List String :=
  match entries with
  | [] => (regMap, groups)
  | (key, val) :: rest =>
    match nameOf val with
    | none => initRegisterMapOldGo rest regMap groups  -- skip this single entry
    | some nm =>
      let item := fillDefaultsOld nm val
      initRegisterMapOldGo rest (regMap ++ [(key, item)]) (addGroup groups item.group)

/-- Embedding of the older `init_register_map` variant. -/
def initRegisterMapOld (entries : List (String × RawEntry)) :
    List (String × CatEntry) × List String :=
  initRegisterMapOldGo entries [] []

/-! ### Helper lemmas about the string order and `sortStrings` -/

theorem char_toNat_inj {a b : Char} (h : a.toNat = b.toNat) : a = b := by
  have hv : a.val = b.val := UInt32.eq_of_val_eq (Fin.ext h)
  exact Char.ext hv

theorem charListLt_asymm :
    ∀ {a b : List Char}, charListLt a b = true → charListLt b a = false
  | [], [], h => by simp [charListLt] at h
  | [], _ :: _, _ => by simp [charListLt]
  | _ :: _, [], h => by simp [charListLt] at h
  | x :: xs, y :: ys, h => by
    simp only [charListLt] at h ⊢
    rcases Nat.lt_trichotomy x.toNat y.toNat with hlt | heq | hgt
    · simp [hlt, Nat.lt_asymm hlt, Nat.lt_irrefl]
    · simp only [heq, Nat.lt_irrefl, if_false] at h ⊢
      exact charListLt_asymm h
    · simp [hgt, Nat.lt_asymm hgt] at h

theorem charListLt_conn :
    ∀ {a b : List Char}, charListLt a b = false → charListLt b a = false → a = b
  | [], [], _, _ => rfl
  | [], _ :: _, h, _ => by simp [charListLt] at h
  | _ :: _, [], _, h' => by simp [charListLt] at h'
  | x :: xs, y :: ys, h, h' => by
    simp only [charListLt] at h h'
    rcases Nat.lt_trichotomy x.toNat y.toNat with hlt | heq | hgt
    · simp [hlt] at h
    · simp only [heq, Nat.lt_irrefl, if_false] at h h'
      rw [char_toNat_inj heq, charListLt_conn h h']
    · simp [hgt] at h'

theorem charListLt_trans :
    ∀ {a b c : List Char}, charListLt a b = true → charListLt b c = true →
      charListLt a c = true
  | [], [], _, h1, _ => by simp [charListLt] at h1
  | [], _ :: _, [], _, h2 => by simp [charListLt] at h2
  | [], _ :: _, _ :: _, _, _ => by simp [charListLt]
  | _ :: _, [], _, h1, _ => by simp [charListLt] at h1
  | _ :: _, _ :: _, [], _, h2 => by simp [charListLt] at h2
  | x :: xs, y :: ys, z :: zs, h1, h2 => by
    simp only [charListLt] at h1 h2 ⊢
    by_cases hxy : x.toNat < y.toNat
    · by_cases hyz : y.toNat < z.toNat
      · rw [if_pos (Nat.lt_trans hxy hyz)]
      · rw [if_neg hyz] at h2
        by_cases hzy : z.toNat < y.toNat
        · rw [if_pos hzy] at h2
          exact absurd h2 (by simp)
        · have heq : y.toNat = z.toNat := by omega
          rw [if_pos (heq ▸ hxy)]
    · rw [if_neg hxy] at h1
      by_cases hyx : y.toNat < x.toNat
      · rw [if_pos hyx] at h1
        exact absurd h1 (by simp)
      · rw [if_neg hyx] at h1
        have hxyeq : x.toNat = y.toNat := by omega
        by_cases hyz : y.toNat < z.toNat
        · rw [if_pos (hxyeq ▸ hyz)]
        · rw [if_neg hyz] at h2
          by_cases hzy : z.toNat < y.toNat
          · rw [if_pos hzy] at h2
            exact absurd h2 (by simp)
          · rw [if_neg hzy] at h2
            have hxz : ¬ x.toNat < z.toNat := by omega
            have hzx : ¬ z.toNat < x.toNat := by omega
            rw [if_neg hxz, if_neg hzx]
            exact charListLt_trans h1 h2

theorem pyStrLe_total {x y : String} (h : pyStrLe x y = false) : pyStrLe y x = true := by
  simp only [pyStrLe, pyStrLt, Bool.not_eq_false'] at h
  simp only [pyStrLe, pyStrLt, charListLt_asymm h, Bool.not_false]

theorem pyStrLe_trans {x y z : String} (hxy : pyStrLe x y = true)
    (hyz : pyStrLe y z = true) : pyStrLe x z = true := by
  simp only [pyStrLe, pyStrLt, Bool.not_eq_true'] at hxy hyz
  simp only [pyStrLe, pyStrLt, Bool.not_eq_true']
  by_contra hzx
  rw [Bool.not_eq_false] at hzx
  cases h1 : charListLt y.data z.data
  · have : y.data = z.data := charListLt_conn h1 hyz
    rw [this] at hxy
    rw [hxy] at hzx
    exact Bool.false_ne_true hzx
  · have : charListLt y.data x.data = true := charListLt_trans h1 hzx
    rw [this] at hxy
    exact Bool.false_ne_true hxy.symm

theorem pyStrLe_antisymm {x y : String} (h : pyStrLe x y = true)
    (h' : pyStrLe y x = true) : x = y := by
  simp only [pyStrLe, pyStrLt, Bool.not_eq_true', Bool.not_eq_true] at h h'
  have hd := charListLt_conn h' h
  cases x
  cases y
  exact congrArg String.mk hd

/-- The sorting order used by `sortStrings`, as a relation. -/
def strle (a b : String) : Prop := pyStrLe a b = true

theorem insertStr_perm (x : String) :
    ∀ l : List String, List.Perm (insertStr x l) (x :: l)
  | [] => List.Perm.refl _
  | y :: ys => by
    simp only [insertStr]
    by_cases h : pyStrLe x y = true
    · rw [if_pos h]
    · rw [if_neg h]
      exact ((insertStr_perm x ys).cons y).trans (List.Perm.swap x y ys)

theorem sortStrings_perm : ∀ l : List String, List.Perm (sortStrings l) l
  | [] => List.Perm.refl _
  | x :: xs => (insertStr_perm x (sortStrings xs)).trans ((sortStrings_perm xs).cons x)

theorem mem_insertStr {x z : String} {l : List String} (hz : z ∈ insertStr x l) :
    z = x ∨ z ∈ l := by
  rcases List.mem_cons.mp ((insertStr_perm x l).mem_iff.mp hz) with h | h
  · exact Or.inl h
  · exact Or.inr h

theorem sortStrings_sorted : ∀ l : List String, List.Sorted strle (sortStrings l) := by
  have hins : ∀ (x : String) (l : List String), List.Sorted strle l →
      List.Sorted strle (insertStr x l) := by
    intro x l
    induction l with
    | nil => intro _; simp [insertStr, List.Sorted]
    | cons y ys ih =>
      intro hs
      rw [List.sorted_cons] at hs
      simp only [insertStr]
      by_cases h : pyStrLe x y = true
      · rw [if_pos h, List.sorted_cons]
        refine ⟨?_, List.sorted_cons.mpr hs⟩
        intro b hb
        rcases List.mem_cons.mp hb with rfl | hb
        · exact h
        · exact pyStrLe_trans h (hs.1 b hb)
      · rw [if_neg h, List.sorted_cons]
        refine ⟨?_, ih hs.2⟩
        intro b hb
        rcases mem_insertStr hb with hbx | hb
        · rw [hbx]
          have hf : pyStrLe x y = false := by
            cases hxy : pyStrLe x y
            · rfl
            · exact absurd hxy h
          exact pyStrLe_total hf
        · exact hs.1 b hb
  intro l
  induction l with
  | nil => simp [sortStrings, List.Sorted]
  | cons x xs ih => exact hins x (sortStrings xs) ih

theorem sortStrings_eq_of_perm {l l' : List String} (h : l.Perm l') :
    sortStrings l = sortStrings l' := by
  haveI : IsAntisymm String strle := ⟨fun _ _ ha hb => pyStrLe_antisymm ha hb⟩
  exact List.eq_of_perm_of_sorted
    ((sortStrings_perm l).trans (h.trans (sortStrings_perm l').symm))
    (sortStrings_sorted l) (sortStrings_sorted l')

/-! ### Helper lemmas about the cluster planner -/

/-- The clustering walk step on an address/item pair (the body of
`clusterStep` once filtering and catalog lookup are done). -/
def pairStep : Cluster × List Cluster → Nat × RegItem → Cluster × List Cluster :=
  fun (cl, acc) (a, item) =>
    let (cl, acc) :=
      if a > cl.start + cl.length then
        if cl.start > 0 then
          ({ start := a, length := 0, items := [] }, acc ++ [cl])
        else
          ({ start := a, length := 0, items := [] }, acc)
      else (cl, acc)
    ({ cl with length := cl.length + item.length, items := cl.items ++ [item] }, acc)

/-- The address/item pairs a register-id list contributes to the walk. -/
def pairsOf (m : String → Option RegItem) (l : List String) : List (Nat × RegItem) :=
  l.filterMap fun r =>
    if isNumericStr r then (m r).map (fun it => (digitsToNat r, it)) else none

theorem plannerPairs_eq (m : String → Option RegItem) (registers : List String) :
    plannerPairs m registers = pairsOf m (sortStrings registers) := rfl

theorem foldl_clusterStep_eq_pairs (m : String → Option RegItem) :
    ∀ (l : List String) (acc : Cluster × List Cluster),
      l.foldl (clusterStep m) acc = (pairsOf m l).foldl pairStep acc := by
  intro l
  induction l with
  | nil => intro acc; rfl
  | cons r rest ih =>
    intro acc
    obtain ⟨cl, a⟩ := acc
    by_cases hn : isNumericStr r = true
    · cases hm : m r with
      | none =>
        rw [List.foldl_cons, ih]
        simp only [pairsOf, List.filterMap_cons, hn, if_pos, hm, Option.map_none']
        congr 1
        simp [clusterStep, hn, hm]
      | some it =>
        rw [List.foldl_cons, ih]
        simp only [pairsOf, List.filterMap_cons, hn, if_pos, hm, Option.map_some']
        rw [List.foldl_cons]
        congr 1
        simp only [clusterStep, hn, if_pos, hm, pairStep]
    · have hn' : isNumericStr r = false := by
        cases h : isNumericStr r
        · rfl
        · exact absurd h hn
      rw [List.foldl_cons, ih]
      simp only [pairsOf, List.filterMap_cons, hn']
      congr 1
      simp [clusterStep, hn']

/-- Close the walk: append the trailing cluster when it is real. -/
def finishClusters (p : Cluster × List Cluster) : List Cluster :=
  if p.1.start > 0 then p.2 ++ [p.1] else p.2

theorem createRegisterClusters_eq_finish (m : String → Option RegItem)
    (registers : List String) :
    createRegisterClusters m registers =
      finishClusters ((sortStrings registers).foldl (clusterStep m)
        ({ start := 0, length := 0, items := [] }, [])) := by
  rw [createRegisterClusters, finishClusters]

theorem foldl_pairStep_spec :
    ∀ (ps : List (Nat × RegItem)) (cl : Cluster) (acc : List Cluster),
      finishClusters (ps.foldl pairStep (cl, acc)) = acc ++ specGreedyClusters ps cl := by
  intro ps
  induction ps with
  | nil =>
    intro cl acc
    simp only [List.foldl_nil, finishClusters, specGreedyClusters]
    by_cases h : cl.start > 0
    · rw [if_pos h, if_pos h]
    · rw [if_neg h, if_neg h, List.append_nil]
  | cons p rest ih =>
    intro cl acc
    obtain ⟨a, it⟩ := p
    rw [List.foldl_cons]
    by_cases hgap : a > cl.start + cl.length
    · by_cases hfirst : cl.start > 0
      · have : pairStep (cl, acc) (a, it) =
            ({ start := a, length := it.length, items := [it] }, acc ++ [cl]) := by
          simp [pairStep, hgap, hfirst]
        rw [this, ih]
        simp only [specGreedyClusters, if_pos hgap, if_pos hfirst]
        rw [List.append_assoc]
      · have : pairStep (cl, acc) (a, it) =
            ({ start := a, length := it.length, items := [it] }, acc) := by
          simp [pairStep, hgap, hfirst]
        rw [this, ih]
        simp only [specGreedyClusters, if_pos hgap, if_neg hfirst]
        rfl
    · have : pairStep (cl, acc) (a, it) =
          ({ cl with length := cl.length + it.length, items := cl.items ++ [it] }, acc) := by
        simp [pairStep, hgap]
      rw [this, ih]
      simp only [specGreedyClusters, if_neg hgap]

theorem clusterStep_skip {m : String → Option RegItem} {r : String}
    (h : isNumericStr r = false ∨ m r = none) (acc : Cluster × List Cluster) :
    clusterStep m acc r = acc := by
  obtain ⟨cl, a⟩ := acc
  rcases h with h | h
  · simp [clusterStep, h]
  · by_cases hn : isNumericStr r = true
    · simp [clusterStep, hn, h]
    · have hn' : isNumericStr r = false := by
        cases hc : isNumericStr r
        · rfl
        · exact absurd hc hn
      simp [clusterStep, hn']

theorem foldl_insertStr_skip {m : String → Option RegItem} {x : String}
    (h : isNumericStr x = false ∨ m x = none) :
    ∀ (l : List String) (acc : Cluster × List Cluster),
      (insertStr x l).foldl (clusterStep m) acc = l.foldl (clusterStep m) acc := by
  intro l
  induction l with
  | nil =>
    intro acc
    simp only [insertStr, List.foldl_cons, List.foldl_nil, clusterStep_skip h]
  | cons y ys ih =>
    intro acc
    simp only [insertStr]
    by_cases hle : pyStrLe x y = true
    · rw [if_pos hle, List.foldl_cons, clusterStep_skip h]
    · rw [if_neg hle, List.foldl_cons, List.foldl_cons, ih]

theorem lookup_append_self {α β : Type} [BEq α] [LawfulBEq α]
    (l : List (α × β)) (k : α) (v : β) (h : l.lookup k = none) :
    (l ++ [(k, v)]).lookup k = some v := by
  induction l with
  | nil => simp [List.lookup]
  | cons p rest ih =>
    obtain ⟨k', v'⟩ := p
    by_cases hk : (k == k') = true
    · simp only [List.lookup, hk] at h
      exact absurd h (by simp)
    · have hk' : (k == k') = false := by
        cases hc : (k == k')
        · rfl
        · exact absurd hc hk
      simp only [List.cons_append, List.lookup, hk'] at h ⊢
      exact ih h

/-! ### Helper lemmas about `Except`, `foldlM` and `dictSet` -/

theorem except_bind_error {β γ : Type} (f : β → Except Unit γ) (e : Unit) :
    (Except.error e >>= f) = Except.error e := rfl

theorem except_bind_ok {β γ : Type} (f : β → Except Unit γ) (b : β) :
    (Except.ok b >>= f) = f b := rfl

theorem foldlM_error_of_mem {α β : Type} (f : β → α → Except Unit β) (x : α)
    (hx : ∀ b, f b x = .error ()) :
    ∀ (l : List α) (b₀ : β), x ∈ l → l.foldlM f b₀ = .error () := by
  intro l
  induction l with
  | nil => intro b₀ h; cases h
  | cons y ys ih =>
    intro b₀ h
    rw [List.foldlM_cons]
    cases hf : f b₀ y with
    | error e => rw [except_bind_error]
    | ok b₁ =>
      rw [except_bind_ok]
      rcases List.mem_cons.mp h with hxy | hmem
      · have hbad := hx b₀
        rw [← hxy] at hf
        rw [hf] at hbad
        cases hbad
      · exact ih b₁ hmem

theorem foldlM_inv {α β : Type} (f : β → α → Except Unit β) (P : β → Prop)
    (hstep : ∀ b a b', P b → f b a = .ok b' → P b') :
    ∀ (l : List α) (b₀ : β), P b₀ → ∀ b, l.foldlM f b₀ = .ok b → P b := by
  intro l
  induction l with
  | nil =>
    intro b₀ h b hb
    rw [List.foldlM_nil] at hb
    cases hb
    exact h
  | cons y ys ih =>
    intro b₀ h b hb
    rw [List.foldlM_cons] at hb
    cases hf : f b₀ y with
    | error e => rw [hf, except_bind_error] at hb; cases hb
    | ok b₁ =>
      rw [hf, except_bind_ok] at hb
      exact ih b₁ (hstep b₀ y b₁ h hf) b hb

theorem lookup_dictSet_self {α : Type} (l : List (String × α)) (k : String) (v : α) :
    (dictSet l k v).lookup k = some v := by
  induction l with
  | nil => simp [dictSet, List.lookup]
  | cons p rest ih =>
    obtain ⟨k', v'⟩ := p
    by_cases hk : k' = k
    · have hbeq : (k == k') = true := by simp [hk]
      simp only [dictSet, if_pos hk, List.lookup, hbeq]
    · have hbeq : (k == k') = false := by
        simp only [beq_eq_false_iff_ne, ne_eq]
        exact fun he => hk he.symm
      simp only [dictSet, if_neg hk, List.lookup, hbeq]
      exact ih

theorem lookup_dictSet_ne {α : Type} (l : List (String × α)) (k k' : String) (v : α)
    (h : k' ≠ k) : (dictSet l k v).lookup k' = l.lookup k' := by
  induction l with
  | nil =>
    have hbeq : (k' == k) = false := by simpa using h
    simp [dictSet, List.lookup, hbeq]
  | cons p rest ih =>
    obtain ⟨k₀, v₀⟩ := p
    by_cases hk : k₀ = k
    · subst hk
      have hbeq : (k' == k₀) = false := by simpa using h
      simp [dictSet, List.lookup, hbeq]
    · simp only [dictSet, if_neg hk, List.lookup]
      cases hq : (k' == k₀)
      · simp only [ih]
      · rfl

/-! ### Helper lemmas about the coordinator -/

/-- No negative derived (scalar) float is present in a snapshot. -/
def NoNegFloat (pv : PvData) : Prop :=
  ∀ k q, pv.lookup k = some (Entry.scalar (PyVal.pfloat q)) → 0 ≤ q

theorem noNegFloat_nil : NoNegFloat [] := by
  intro k q h
  simp [List.lookup] at h

theorem noNegFloat_dictSet_dict {pv : PvData} (hpv : NoNegFloat pv)
    (mq : String) (d : Decoded) : NoNegFloat (dictSet pv mq (.dict d)) := by
  intro k q hk
  by_cases hkm : k = mq
  · rw [hkm, lookup_dictSet_self] at hk
    cases hk
  · rw [lookup_dictSet_ne _ _ _ _ hkm] at hk
    exact hpv k q hk

/-- The snapshot clampStep leaves behind when the looked-up value is `e`. -/
def clampValue (pv : PvData) (mq : String) (e : Entry) : PvData :=
  match e with
  | .scalar (.pfloat q) => if q < 0 then dictSet pv mq (.scalar (.pint 0)) else pv
  | _ => pv

theorem clampStep_eq (pv : PvData) (mq : String) (e : Entry)
    (h : pv.lookup mq = some e) :
    clampStep pv mq = .ok (clampValue pv mq e) := by
  unfold clampStep pvGet
  rw [h, except_bind_ok]
  cases e with
  | dict d => rfl
  | scalar v =>
    cases v with
    | pnone => rfl
    | pint n => rfl
    | pstr s => rfl
    | pfloat q =>
      simp only [clampValue]
      by_cases hq : q < 0
      · simp only [if_pos hq]
        rfl
      · simp only [if_neg hq]
        rfl

theorem noNegFloat_clamp_assign {pv : PvData} (hpv : NoNegFloat pv)
    (mq : String) (v : PyVal) {pv' : PvData}
    (h : clampStep (dictSet pv mq (.scalar v)) mq = .ok pv') : NoNegFloat pv' := by
  rw [clampStep_eq _ _ _ (lookup_dictSet_self pv mq (.scalar v))] at h
  cases v with
  | pfloat q =>
    simp only [clampValue] at h
    by_cases hq : q < 0
    · rw [if_pos hq] at h
      cases h
      intro k q' hk
      by_cases hkm : k = mq
      · rw [hkm, lookup_dictSet_self] at hk
        cases hk
      · rw [lookup_dictSet_ne _ _ _ _ hkm, lookup_dictSet_ne _ _ _ _ hkm] at hk
        exact hpv k q' hk
    · rw [if_neg hq] at h
      cases h
      intro k q' hk
      by_cases hkm : k = mq
      · rw [hkm, lookup_dictSet_self] at hk
        cases hk
        exact not_lt.mp hq
      · rw [lookup_dictSet_ne _ _ _ _ hkm] at hk
        exact hpv k q' hk
  | pnone =>
    simp only [clampValue] at h
    cases h
    intro k q' hk
    by_cases hkm : k = mq
    · rw [hkm, lookup_dictSet_self] at hk
      cases hk
    · rw [lookup_dictSet_ne _ _ _ _ hkm] at hk
      exact hpv k q' hk
  | pint n =>
    simp only [clampValue] at h
    cases h
    intro k q' hk
    by_cases hkm : k = mq
    · rw [hkm, lookup_dictSet_self] at hk
      cases hk
    · rw [lookup_dictSet_ne _ _ _ _ hkm] at hk
      exact hpv k q' hk
  | pstr s =>
    simp only [clampValue] at h
    cases h
    intro k q' hk
    by_cases hkm : k = mq
    · rw [hkm, lookup_dictSet_self] at hk
      cases hk
    · rw [lookup_dictSet_ne _ _ _ _ hkm] at hk
      exact hpv k q' hk

theorem noNegFloat_clamp_noassign {pv : PvData} (hpv : NoNegFloat pv)
    (mq : String) {pv' : PvData}
    (h : clampStep pv mq = .ok pv') : NoNegFloat pv' := by
  cases hg : pv.lookup mq with
  | none =>
    unfold clampStep pvGet at h
    rw [hg, except_bind_error] at h
    cases h
  | some e =>
    rw [clampStep_eq _ _ _ hg] at h
    cases e with
    | dict d =>
      simp only [clampValue] at h
      cases h
      exact hpv
    | scalar v =>
      cases v with
      | pnone =>
        simp only [clampValue] at h
        cases h
        exact hpv
      | pint n =>
        simp only [clampValue] at h
        cases h
        exact hpv
      | pstr s =>
        simp only [clampValue] at h
        cases h
        exact hpv
      | pfloat q =>
        simp only [clampValue] at h
        by_cases hq : q < 0
        · rw [if_pos hq] at h
          cases h
          intro k q' hk
          by_cases hkm : k = mq
          · rw [hkm, lookup_dictSet_self] at hk
            cases hk
          · rw [lookup_dictSet_ne _ _ _ _ hkm] at hk
            exact hpv k q' hk
        · rw [if_neg hq] at h
          cases h
          exact hpv

theorem processRegister_noNeg (m : String → Option RegItem)
    (data : List (String × Decoded)) (now : String) (pv : PvData) (r : String)
    (pv' : PvData) (hpv : NoNegFloat pv)
    (h : processRegister m data now pv r = .ok pv') : NoNegFloat pv' := by
  unfold processRegister at h
  cases hm : m r with
  | none =>
    simp only [hm] at h
    cases h
  | some it =>
    simp only [hm] at h
    cases hmq : mqttKey it.mqtt with
    | none =>
      simp only [hmq] at h
      cases h
      exact hpv
    | some mq =>
      simp only [hmq] at h
      by_cases hn : isNumericStr r = true
      · rw [if_pos hn] at h
        cases hd : data.lookup r with
        | none =>
          simp only [hd] at h
          cases h
        | some d =>
          simp only [hd] at h
          cases h
          exact noNegFloat_dictSet_dict hpv mq d
      · rw [if_neg hn] at h
        cases hc : computePseudo data now pv r with
        | error e =>
          simp only [hc] at h
          cases h
        | ok vq =>
          simp only [hc] at h
          cases vq with
          | some v =>
            exact noNegFloat_clamp_assign hpv mq v h
          | none =>
            exact noNegFloat_clamp_noassign hpv mq h

theorem readMtecData_noNeg (m : String → Option RegItem) (registers : List String)
    (data : List (String × Decoded)) (now : String) :
    NoNegFloat (readMtecData m registers data now) := by
  unfold readMtecData
  cases hfold : registers.foldlM (processRegister m data now) ([] : PvData) with
  | error e => exact noNegFloat_nil
  | ok pv =>
    exact foldlM_inv (processRegister m data now) NoNegFloat
      (fun b a b' hb hab => processRegister_noNeg m data now b a b' hb hab)
      registers [] noNegFloat_nil pv hfold

theorem processRegister_cday_error (m : String → Option RegItem)
    (data : List (String × Decoded)) (now : String)
    (hm : ∀ it, m "consumption-day" = some it → (mqttKey it.mqtt).isSome = true)
    (hd : data.lookup "31005" = none ∨ data.lookup "31001" = none ∨
      data.lookup "31004" = none ∨ data.lookup "31000" = none ∨
      data.lookup "31003" = none) (pv : PvData) :
    processRegister m data now pv "consumption-day" = .error () := by
  unfold processRegister
  cases hmr : m "consumption-day" with
  | none => simp only [hmr]
  | some it =>
    simp only [hmr]
    obtain ⟨mq, hmq⟩ := Option.isSome_iff_exists.mp (hm it hmr)
    simp only [hmq]
    rw [if_neg (by decide : ¬ (isNumericStr "consumption-day" = true))]
    have hcp : computePseudo data now pv "consumption-day" = .error () := by
      unfold computePseudo
      rw [if_neg (by decide : ¬ (("consumption-day" : String) = "consumption"))]
      rw [if_pos rfl]
      unfold dataValue
      rcases hd with hd | hd | hd | hd | hd
      · rw [hd]
        rfl
      · cases h5 : data.lookup "31005" with
        | none => rfl
        | some d5 =>
          rw [hd]
          rfl
      · cases h5 : data.lookup "31005" with
        | none => rfl
        | some d5 =>
          cases h1 : data.lookup "31001" with
          | none => rfl
          | some d1 =>
            rw [hd]
            rfl
      · cases h5 : data.lookup "31005" with
        | none => rfl
        | some d5 =>
          cases h1 : data.lookup "31001" with
          | none => rfl
          | some d1 =>
            cases h4 : data.lookup "31004" with
            | none => rfl
            | some d4 =>
              rw [hd]
              rfl
      · cases h5 : data.lookup "31005" with
        | none => rfl
        | some d5 =>
          cases h1 : data.lookup "31001" with
          | none => rfl
          | some d1 =>
            cases h4 : data.lookup "31004" with
            | none => rfl
            | some d4 =>
              cases h0 : data.lookup "31000" with
              | none => rfl
              | some d0 =>
                rw [hd]
                rfl
    simp only [hcp]

/-! ### Helper lemmas about the binary decoder -/

/-- The wire types the decoder dispatches on. -/
def knownWireTypes : List String :=
  ["U16", "I16", "U32", "I32", "BYTE", "BIT", "DAT", "STR"]

/-- How many bytes the decoder must find in the buffer or raise, for the
fixed-size wire types read through `struct.unpack` (`none` for the
`BYTE`/`BIT` lengths that leave `val = None`, for unknown types, and for
`STR`, whose `decode_string` slices without a bounds check and never
raises on a short buffer). -/
def requiredBytes (it : RegItem) : Option Nat :=
  match it.type with
  | none => none
  | some t =>
    if t = "U16" then some 2
    else if t = "I16" then some 2
    else if t = "U32" then some 4
    else if t = "I32" then some 4
    else if t = "BYTE" then
      if it.length = 1 then some 2
      else if it.length = 2 then some 4
      else if it.length = 4 then some 8
      else none
    else if t = "BIT" then
      if it.length = 1 then some 1
      else if it.length = 2 then some 2
      else none
    else if t = "DAT" then some 6
    else none

/-- `v` is a Python number. -/
def isNumVal : PyVal → Bool
  | .pint _ => true
  | .pfloat _ => true
  | _ => false

theorem preScaleValue_unknown (raw : List Nat) (offset : Nat) (it : RegItem)
    (h : ∀ t, it.type = some t → t ∉ knownWireTypes) :
    preScaleValue raw offset it = none := by
  unfold preScaleValue
  cases htype : it.type with
  | none => rfl
  | some t =>
    have hmem := h t htype
    simp only [knownWireTypes, List.mem_cons, List.mem_singleton, not_or] at hmem
    obtain ⟨h1, h2, h3, h4, h5, h6, h7, h8, -⟩ := hmem
    simp only [if_neg h1, if_neg h2, if_neg h3, if_neg h4, if_neg h5, if_neg h6,
      if_neg h7, if_neg h8]

theorem decodeRawdata_none_of_preScale (raw : List Nat) (offset : Nat) (it : RegItem)
    (h : preScaleValue raw offset it = none) : decodeRawdata raw offset it = none := by
  unfold decodeRawdata
  rw [h]

theorem readBytes_short (bytes : List Nat) (n : Nat) (h : bytes.length < n) :
    readBytes bytes n = none := by
  unfold readBytes
  rw [if_pos h]

theorem decodeUInt_short (bytes : List Nat) (n : Nat) (h : bytes.length < n) :
    decodeUInt bytes n = none := by
  unfold decodeUInt
  rw [readBytes_short bytes n h]
  rfl

theorem preScaleValue_short (raw : List Nat) (offset : Nat) (it : RegItem) (n : Nat)
    (hreq : requiredBytes it = some n)
    (hlen : (toBytes (raw.drop offset)).length < n) :
    preScaleValue raw offset it = none := by
  unfold requiredBytes at hreq
  unfold preScaleValue
  cases htype : it.type with
  | none => rfl
  | some t =>
    simp only
    rw [htype] at hreq
    simp only at hreq
    by_cases h1 : t = "U16"
    · rw [if_pos h1] at hreq ⊢
      cases hreq
      rw [decodeUInt_short _ _ hlen]
      rfl
    · rw [if_neg h1] at hreq ⊢
      by_cases h2 : t = "I16"
      · rw [if_pos h2] at hreq ⊢
        cases hreq
        rw [decodeUInt_short _ _ hlen]
        rfl
      · rw [if_neg h2] at hreq ⊢
        by_cases h3 : t = "U32"
        · rw [if_pos h3] at hreq ⊢
          cases hreq
          rw [decodeUInt_short _ _ hlen]
          rfl
        · rw [if_neg h3] at hreq ⊢
          by_cases h4 : t = "I32"
          · rw [if_pos h4] at hreq ⊢
            cases hreq
            rw [decodeUInt_short _ _ hlen]
            rfl
          · rw [if_neg h4] at hreq ⊢
            by_cases h5 : t = "BYTE"
            · rw [if_pos h5] at hreq ⊢
              by_cases hl1 : it.length = 1
              · rw [if_pos hl1] at hreq ⊢
                cases hreq
                rw [readBytes_short _ _ hlen]
                rfl
              · rw [if_neg hl1] at hreq ⊢
                by_cases hl2 : it.length = 2
                · rw [if_pos hl2] at hreq ⊢
                  cases hreq
                  rw [readBytes_short _ _ hlen]
                  rfl
                · rw [if_neg hl2] at hreq ⊢
                  by_cases hl4 : it.length = 4
                  · rw [if_pos hl4] at hreq ⊢
                    cases hreq
                    rw [readBytes_short _ _ hlen]
                    rfl
                  · rw [if_neg hl4] at hreq
                    cases hreq
            · rw [if_neg h5] at hreq ⊢
              by_cases h6 : t = "BIT"
              · rw [if_pos h6] at hreq ⊢
                by_cases hl1 : it.length = 1
                · rw [if_pos hl1] at hreq ⊢
                  cases hreq
                  rw [readBytes_short _ _ hlen]
                  rfl
                · rw [if_neg hl1] at hreq ⊢
                  by_cases hl2 : it.length = 2
                  · rw [if_pos hl2] at hreq ⊢
                    cases hreq
                    rw [readBytes_short _ _ hlen]
                    rfl
                  · rw [if_neg hl2] at hreq
                    cases hreq
              · rw [if_neg h6] at hreq ⊢
                by_cases h7 : t = "DAT"
                · rw [if_pos h7] at hreq ⊢
                  cases hreq
                  rw [readBytes_short _ _ hlen]
                  rfl
                · rw [if_neg h7] at hreq
                  cases hreq

theorem applyUpdates_cons (data : List (String × Decoded)) (k : String) (v : Decoded)
    (l : List (String × Decoded)) :
    applyUpdates data ((k, v) :: l) = applyUpdates (dictSet data k v) l := rfl

theorem successEntries_cons_skip (start : Nat) (raw : List Nat) (it : RegItem)
    (rest : List RegItem) (o : Nat) (ht : typeTruthy it.type = false) :
    successEntries start raw (it :: rest) o =
      successEntries start raw rest (o + it.length) := by
  simp [successEntries, itemOffsets, ht]

theorem successEntries_cons_fail (start : Nat) (raw : List Nat) (it : RegItem)
    (rest : List RegItem) (o : Nat) (ht : typeTruthy it.type = true)
    (hd : decodeRawdata raw o it = none) :
    successEntries start raw (it :: rest) o =
      successEntries start raw rest (o + it.length) := by
  simp [successEntries, itemOffsets, ht, hd]

theorem successEntries_cons_ok (start : Nat) (raw : List Nat) (it : RegItem)
    (rest : List RegItem) (o : Nat) (dv : Decoded) (ht : typeTruthy it.type = true)
    (hd : decodeRawdata raw o it = some dv) :
    successEntries start raw (it :: rest) o =
      (toString (start + o), dv) :: successEntries start raw rest (o + it.length) := by
  simp [successEntries, itemOffsets, ht, hd]

theorem processClusterAux_eq (start : Nat) (raw : List Nat) :
    ∀ (items : List RegItem) (offset : Nat) (data : List (String × Decoded)),
      processClusterAux start raw items offset data =
        applyUpdates data (successEntries start raw items offset) := by
  intro items
  induction items with
  | nil => intro o d; rfl
  | cons it rest ih =>
    intro o d
    by_cases ht : typeTruthy it.type = true
    · cases hd : decodeRawdata raw o it with
      | none =>
        simp only [processClusterAux, ht, hd, if_true]
        rw [successEntries_cons_fail start raw it rest o ht hd]
        exact ih (o + it.length) d
      | some dv =>
        simp only [processClusterAux, ht, hd, if_true]
        rw [successEntries_cons_ok start raw it rest o dv ht hd, applyUpdates_cons]
        exact ih (o + it.length) (dictSet d (toString (start + o)) dv)
    · have ht' : typeTruthy it.type = false := by
        cases hc : typeTruthy it.type
        · rfl
        · exact absurd hc ht
      simp only [processClusterAux, ht', Bool.false_eq_true, if_false]
      rw [successEntries_cons_skip start raw it rest o ht']
      exact ih (o + it.length) d

theorem decodeRawdata_u32_roundtrip (u : Nat) (hu : u < 2 ^ 32) (it : RegItem)
    (htype : it.type = some "U32") (hscale : it.scale = 1) :
    decodeRawdata [u / 65536, u % 65536] 0 it =
      some { name := it.name, value := .pint (Int.ofNat u), unit := it.unit } := by
  have hbytes : toBytes (([u / 65536, u % 65536] : List Nat).drop 0) =
      [u / 65536 / 256, u / 65536 % 256, u % 65536 / 256, u % 65536 % 256] := rfl
  have hval : decodeUInt [u / 65536 / 256, u / 65536 % 256, u % 65536 / 256,
      u % 65536 % 256] 4 =
      some ((((0 * 256 + u / 65536 / 256) * 256 + u / 65536 % 256) * 256 +
        u % 65536 / 256) * 256 + u % 65536 % 256) := rfl
  have harith : (((0 * 256 + u / 65536 / 256) * 256 + u / 65536 % 256) * 256 +
      u % 65536 / 256) * 256 + u % 65536 % 256 = u := by omega
  have hpre : preScaleValue [u / 65536, u % 65536] 0 it = some (.pint (Int.ofNat u)) := by
    unfold preScaleValue
    simp only [htype]
    rw [if_neg (by decide : ¬ ("U32" : String) = "U16"),
      if_neg (by decide : ¬ ("U32" : String) = "I16")]
    rw [if_true]
    rw [hbytes, hval, harith]
    rfl
  unfold decodeRawdata
  rw [hpre]
  simp only
  have hcond : (pyTruthy (.pint (Int.ofNat u)) && decide (it.scale > 1)) = false := by
    rw [hscale]
    simp
  rw [if_neg (by simp only [hcond]; decide)]

theorem decodeRawdata_scale (raw : List Nat) (offset : Nat) (it : RegItem) (v : PyVal)
    (hv : preScaleValue raw offset it = some v) (hnum : isNumVal v = true)
    (hs : 1 < it.scale) :
    ∃ d, decodeRawdata raw offset it = some d ∧
      ratOfVal d.value = ratOfVal v / (it.scale : Rat) := by
  unfold decodeRawdata
  rw [hv]
  simp only
  have hs' : decide (it.scale > 1) = true := decide_eq_true hs
  have hsne : it.scale ≠ 0 := by omega
  cases v with
  | pint a =>
    by_cases ha : a = 0
    · have hcond : (pyTruthy (.pint a) && decide (it.scale > 1)) = false := by
        simp [pyTruthy, ha]
      rw [if_neg (by simp only [hcond]; decide)]
      refine ⟨_, rfl, ?_⟩
      simp [ratOfVal, ha]
    · have hcond : (pyTruthy (.pint a) && decide (it.scale > 1)) = true := by
        simp [pyTruthy, ha, hs']
      rw [if_pos hcond]
      have hdiv : pyDivByInt (.pint a) it.scale =
          some (.pfloat ((a : Rat) / (it.scale : Rat))) := by
        unfold pyDivByInt
        simp only
        rw [if_neg hsne]
      rw [hdiv]
      exact ⟨_, rfl, rfl⟩
  | pfloat q =>
    by_cases hq : q = 0
    · have hcond : (pyTruthy (.pfloat q) && decide (it.scale > 1)) = false := by
        simp [pyTruthy, hq]
      rw [if_neg (by simp only [hcond]; decide)]
      refine ⟨_, rfl, ?_⟩
      simp [ratOfVal, hq]
    · have hcond : (pyTruthy (.pfloat q) && decide (it.scale > 1)) = true := by
        simp [pyTruthy, hq, hs']
      rw [if_pos hcond]
      have hdiv : pyDivByInt (.pfloat q) it.scale =
          some (.pfloat (q / (it.scale : Rat))) := by
        unfold pyDivByInt
        simp only
        rw [if_neg hsne]
      rw [hdiv]
      exact ⟨_, rfl, rfl⟩
  | pnone => cases hnum
  | pstr s => cases hnum


theorem decodeRawdata_scale_le_one (raw : List Nat) (offset : Nat) (it : RegItem)
    (hs : it.scale ≤ 1) :
    decodeRawdata raw offset it =
      (preScaleValue raw offset it).map
        (fun v => { name := it.name, value := v, unit := it.unit }) := by
  unfold decodeRawdata
  cases hv : preScaleValue raw offset it with
  | none => rfl
  | some v =>
    simp only
    have hdec : decide (it.scale > 1) = false := by
      have : ¬ it.scale > 1 := by omega
      exact decide_eq_false this
    have hcond : (pyTruthy v && decide (it.scale > 1)) = false := by
      rw [hdec, Bool.and_false]
    rw [if_neg (by simp only [hcond]; decide)]
    rfl

theorem decodeRawdata_str_scale_fails (raw : List Nat) (offset : Nat) (it : RegItem)
    (s : String) (hv : preScaleValue raw offset it = some (.pstr s)) (hsk : s ≠ "")
    (hs : 1 < it.scale) : decodeRawdata raw offset it = none := by
  unfold decodeRawdata
  rw [hv]
  simp only
  have hcond : (pyTruthy (.pstr s) && decide (it.scale > 1)) = true := by
    have h1 : pyTruthy (.pstr s) = true := by
      simp [pyTruthy, hsk]
    rw [h1, decide_eq_true hs, Bool.and_self]
  rw [if_pos hcond]
  rfl

theorem preScaleValue_str (raw : List Nat) (offset : Nat) (it : RegItem)
    (ht : it.type = some "STR") :
    preScaleValue raw offset it =
      (bytesToStr ((toBytes (raw.drop offset)).take (it.length * 2))).map .pstr := by
  unfold preScaleValue
  simp only [ht]
  rw [if_neg (by decide : ¬ ("STR" : String) = "U16"),
    if_neg (by decide : ¬ ("STR" : String) = "I16"),
    if_neg (by decide : ¬ ("STR" : String) = "U32"),
    if_neg (by decide : ¬ ("STR" : String) = "I32"),
    if_neg (by decide : ¬ ("STR" : String) = "BYTE"),
    if_neg (by decide : ¬ ("STR" : String) = "BIT"),
    if_neg (by decide : ¬ ("STR" : String) = "DAT")]
  rw [if_true]

theorem decodeRawdata_str_short (raw : List Nat) (offset : Nat) (it : RegItem)
    (ht : it.type = some "STR")
    (hlen : (toBytes (raw.drop offset)).length ≤ it.length * 2)
    (hs : it.scale ≤ 1) :
    decodeRawdata raw offset it =
      (bytesToStr (toBytes (raw.drop offset))).map
        (fun s => { name := it.name, value := .pstr s, unit := it.unit }) := by
  rw [decodeRawdata_scale_le_one raw offset it hs, preScaleValue_str raw offset it ht]
  rw [List.take_of_length_le hlen]
  cases bytesToStr (toBytes (raw.drop offset)) with
  | none => rfl
  | some str => rfl

theorem getRegisterClusters_stable (m : String → Option RegItem)
    (cache : List (List String × List Cluster)) (regs : List String) :
    (getRegisterClusters m (getRegisterClusters m cache regs).2 regs).1 =
      (getRegisterClusters m cache regs).1 := by
  unfold getRegisterClusters
  cases hc : cache.lookup regs with
  | some cl => simp only [hc]
  | none =>
    simp only [hc]
    rw [lookup_append_self cache regs (createRegisterClusters m regs) hc]

theorem createRegisterClusters_perm (m : String → Option RegItem)
    {regs regs' : List String} (h : regs.Perm regs') :
    createRegisterClusters m regs = createRegisterClusters m regs' := by
  unfold createRegisterClusters
  rw [sortStrings_eq_of_perm h]

theorem createRegisterClusters_skip (m : String → Option RegItem) (x : String)
    (regs : List String) (h : isNumericStr x = false ∨ m x = none) :
    createRegisterClusters m (x :: regs) = createRegisterClusters m regs := by
  unfold createRegisterClusters
  have hsort : sortStrings (x :: regs) = insertStr x (sortStrings regs) := rfl
  rw [hsort, foldl_insertStr_skip h]

theorem createRegisterClusters_spec (m : String → Option RegItem) (regs : List String) :
    createRegisterClusters m regs =
      specGreedyClusters (plannerPairs m regs) { start := 0, length := 0, items := [] } := by
  rw [createRegisterClusters_eq_finish, foldl_clusterStep_eq_pairs, plannerPairs_eq,
    foldl_pairStep_spec]
  rw [List.nil_append]


/-! ### Concrete instances used by the claim theorems -/

/-- A one-word U16 catalog entry named after its id. -/
def lenOneU16 (nm : String) : RegItem :=
  { name := nm, length := 1, type := some "U16", unit := "", scale := 1,
    writable := false, mqtt := none, group := none }

/-- Catalog for the clustering example of claim C1. -/
def mapC1 : String → Option RegItem := fun r =>
  if r = "100" ∨ r = "101" ∨ r = "103" ∨ r = "200" then some (lenOneU16 r) else none

/-- Catalog for the order-independence instance of claim C2. -/
def mapC2 : String → Option RegItem := fun r =>
  if r = "100" ∨ r = "101" then some (lenOneU16 r) else none

/-- A U32 entry with scale 1 for the round-trip of claim C3. -/
def u32C3 : RegItem :=
  { name := "total energy", length := 2, type := some "U32", unit := "kWh", scale := 1,
    writable := false, mqtt := none, group := none }

/-- A U16 entry with scale 10 for the scaling example of claim C3. -/
def u16C3 : RegItem :=
  { name := "voltage", length := 1, type := some "U16", unit := "V", scale := 10,
    writable := false, mqtt := none, group := none }

/-- Catalog for the missing-dependency poll of claim C4. -/
def mapC4 : String → Option RegItem := fun r =>
  if r = "consumption-day" then
    some { name := "consumption day", length := 0, type := none, unit := "kWh", scale := 1,
           writable := false, mqtt := some "consumption_day", group := some "day" }
  else none

/-- Catalog for the negative-integer derived value of claim C5. -/
def mapC5 : String → Option RegItem := fun r =>
  if r = "11000" ∨ r = "11016" then
    some { name := r, length := 1, type := some "U16", unit := "W", scale := 1,
           writable := false, mqtt := none, group := some "base" }
  else if r = "consumption" then
    some { name := "consumption", length := 0, type := none, unit := "W", scale := 1,
           writable := false, mqtt := some "consumption", group := some "base" }
  else none

/-- Decoded map yielding a negative integer consumption for claim C5. -/
def dataC5 : List (String × Decoded) :=
  [("11000", { name := "11000", value := .pint 600, unit := "W" }),
   ("11016", { name := "11016", value := .pint 500, unit := "W" })]

/-- A raw catalog entry with the mandatory name missing (claim C6). -/
def rawNoName : RawEntry := {}

/-- A well-formed raw catalog entry appearing after the invalid one (claim C6). -/
def rawNamed : RawEntry :=
  { name := some "Reg B", length := some (some 1), type := some (some "U16") }

/-- The catalog entry `rawNamed` should load to. -/
def catNamed : CatEntry :=
  { name := "Reg B", length := some 1, type := some "U16", unit := "",
    scale := 1, writable := false, mqtt := none, group := none }

/-- An entry with an unknown wire type (claim C7). -/
def itemFoo : RegItem :=
  { name := "odd", length := 1, type := some "FOO", unit := "", scale := 1,
    writable := false, mqtt := none, group := none }

/-- An STR entry wanting two words (claim C7). -/
def strC7 : RegItem :=
  { name := "model", length := 2, type := some "STR", unit := "", scale := 1,
    writable := false, mqtt := none, group := none }

/-- A BYTE entry with scale 10 (claim C8). -/
def byteScale10 : RegItem :=
  { name := "bytes", length := 1, type := some "BYTE", unit := "", scale := 10,
    writable := false, mqtt := none, group := none }

/-- The same BYTE entry with scale 1 (claim C8). -/
def byteScale1 : RegItem :=
  { name := "bytes", length := 1, type := some "BYTE", unit := "", scale := 1,
    writable := false, mqtt := none, group := none }

/-- Catalog with a two-digit and a three-digit bus address (claim C9). -/
def map99 : String → Option RegItem := fun r =>
  if r = "99" ∨ r = "100" then some (lenOneU16 r) else none

/-- Catalog containing a published unknown pseudo-register (claim C10). -/
def mapC10 : String → Option RegItem := fun r =>
  if r = "11000" then
    some { name := "grid power", length := 1, type := some "U16", unit := "W", scale := 1,
           writable := false, mqtt := some "house", group := some "day" }
  else if r = "foo" then
    some { name := "foo metric", length := 0, type := none, unit := "", scale := 1,
           writable := false, mqtt := some "foo", group := some "day" }
  else none

/-- Decoded map for the claim C10 poll. -/
def dataC10 : List (String × Decoded) :=
  [("11000", { name := "grid power", value := .pint 5, unit := "W" })]

/-- The address list is ascending (the order the spec's walk assumes). -/
def ascendingNat : List Nat → Bool
  | [] => true
  | [_] => true
  | a :: b :: rest => decide (a ≤ b) && ascendingNat (b :: rest)

/-- The looked-up snapshot value at `k` is not a negative float (claim C5). -/
def lookupNonNeg (pv : PvData) (k : String) : Bool :=
  match pv.lookup k with
  | some (.scalar (.pfloat q)) => decide (0 ≤ q)
  | _ => true

/-! ### The claims -/

/-- Claim C1: walking the requested real-address ids in ascending order, the
planner starts a new cluster exactly when the next register's address is
strictly greater than `currentClusterStart + currentClusterLength`
(contiguous or overlapping addresses extend the cluster, only a true gap
starts a new one); in particular ids 100, 101, 103, 200 of catalog length 1
plan as clusters (100, 2), (103, 1), (200, 1). -/
theorem claim1_cluster_gap_rule :
    (∀ (m : String → Option RegItem) (registers : List String),
      ascendingNat ((plannerPairs m registers).map Prod.fst) = true →
      createRegisterClusters m registers =
        specGreedyClusters (plannerPairs m registers)
          { start := 0, length := 0, items := [] })
    ∧ createRegisterClusters mapC1 ["100", "101", "103", "200"] =
        [{ start := 100, length := 2, items := [lenOneU16 "100", lenOneU16 "101"] },
         { start := 103, length := 1, items := [lenOneU16 "103"] },
         { start := 200, length := 1, items := [lenOneU16 "200"] }] :=
  ⟨fun m regs _ => createRegisterClusters_spec m regs, by decide⟩

/-- Witness for claim C1: the gap-rule refinement applied to the concrete
ascending request 100, 101, 103, 200. -/
theorem claim1_witness :
    ascendingNat ((plannerPairs mapC1 ["100", "101", "103", "200"]).map Prod.fst) = true
    ∧ createRegisterClusters mapC1 ["100", "101", "103", "200"] =
        specGreedyClusters (plannerPairs mapC1 ["100", "101", "103", "200"])
          { start := 0, length := 0, items := [] } :=
  ⟨by decide, claim1_cluster_gap_rule.1 mapC1 ["100", "101", "103", "200"] (by decide)⟩

/-- Claim C2: the cluster plan is the same for every permutation of the
requested id list, and asking the memoizing wrapper again with the same list
returns the same plan. -/
theorem claim2_plan_order_independent :
    (∀ (m : String → Option RegItem) (regs regs' : List String), regs.Perm regs' →
      createRegisterClusters m regs = createRegisterClusters m regs')
    ∧ (∀ (m : String → Option RegItem) (cache : List (List String × List Cluster))
        (regs : List String),
        (getRegisterClusters m (getRegisterClusters m cache regs).2 regs).1 =
          (getRegisterClusters m cache regs).1) :=
  ⟨fun m _ _ h => createRegisterClusters_perm m h,
   fun m cache regs => getRegisterClusters_stable m cache regs⟩

/-- Witness for claim C2: a concrete shuffled request plans identically. -/
theorem claim2_witness :
    (["101", "100"] : List String).Perm ["100", "101"]
    ∧ createRegisterClusters mapC2 ["101", "100"] =
        createRegisterClusters mapC2 ["100", "101"] :=
  ⟨by decide, claim2_plan_order_independent.1 mapC2 ["101", "100"] ["100", "101"] (by decide)⟩

/-- Claim C3: a 32-bit value encoded high word first decodes back to itself
for a U32 entry with scale 1, and for every numeric entry with scale > 1 the
decoded value is the raw value divided by the scale. -/
theorem claim3_decode_roundtrip_and_scale :
    (∀ (u : Nat) (it : RegItem), u < 2 ^ 32 → it.type = some "U32" → it.scale = 1 →
      decodeRawdata [u / 65536, u % 65536] 0 it =
        some { name := it.name, value := .pint (Int.ofNat u), unit := it.unit })
    ∧ (∀ (raw : List Nat) (offset : Nat) (it : RegItem) (v : PyVal),
        preScaleValue raw offset it = some v → isNumVal v = true → 1 < it.scale →
        ∃ d, decodeRawdata raw offset it = some d ∧
          ratOfVal d.value = ratOfVal v / (it.scale : Rat)) :=
  ⟨fun u it hu ht hs => decodeRawdata_u32_roundtrip u hu it ht hs,
   fun raw o it v hv hnum hs => decodeRawdata_scale raw o it v hv hnum hs⟩

/-- Witness for claim C3: 100000 survives the U32 round-trip, and the raw
U16 value 1234 with scale 10 decodes to 1234 / 10 (= 123.4). -/
theorem claim3_witness :
    (100000 : Nat) < 2 ^ 32
    ∧ decodeRawdata [100000 / 65536, 100000 % 65536] 0 u32C3 =
        some { name := u32C3.name, value := .pint (Int.ofNat 100000), unit := u32C3.unit }
    ∧ preScaleValue [1234] 0 u16C3 = some (.pint 1234)
    ∧ (∃ d, decodeRawdata [1234] 0 u16C3 = some d ∧
        ratOfVal d.value = ratOfVal (.pint 1234) / (u16C3.scale : Rat)) :=
  ⟨by decide,
   claim3_decode_roundtrip_and_scale.1 100000 u32C3 (by decide) rfl rfl,
   by decide,
   claim3_decode_roundtrip_and_scale.2 [1234] 0 u16C3 (.pint 1234) (by decide)
     (by decide) (by decide)⟩

/-- Claim C4: when a real register required by one of the polled group's
derived formulas is absent from the decoded map (value 31005 for
consumption-day here), the poll returns an empty snapshot, not a partial
one. -/
theorem claim4_missing_dependency_empty :
    ∀ (m : String → Option RegItem) (registers : List String)
      (data : List (String × Decoded)) (now : String),
      "consumption-day" ∈ registers →
      (∀ it, m "consumption-day" = some it → (mqttKey it.mqtt).isSome = true) →
      (data.lookup "31005" = none ∨ data.lookup "31001" = none ∨
        data.lookup "31004" = none ∨ data.lookup "31000" = none ∨
        data.lookup "31003" = none) →
      readMtecData m registers data now = [] := by
  intro m registers data now hmem hm hd
  unfold readMtecData
  rw [foldlM_error_of_mem (processRegister m data now) "consumption-day"
    (processRegister_cday_error m data now hm hd) registers [] hmem]

/-- Witness for claim C4: a day poll whose decoded map is empty yields an
empty snapshot. -/
theorem claim4_witness :
    ("consumption-day" ∈ ["consumption-day"] )
    ∧ readMtecData mapC4 ["consumption-day"] [] "2024-01-01 00:00:00" = [] :=
  ⟨by decide,
   claim4_missing_dependency_empty mapC4 ["consumption-day"] [] "2024-01-01 00:00:00"
     (by decide)
     (fun it hit => by
        have h := Option.some.inj hit
        rw [← h]
        rfl)
     (Or.inl rfl)⟩

/-- Claim C5: the returned snapshot never holds a negative derived float
(negative floats are clamped to exactly 0), while a negative integer-typed
derived value such as consumption = 500 - 600 is left unclamped. -/
theorem claim5_negative_float_clamp :
    (∀ (m : String → Option RegItem) (regs : List String)
      (data : List (String × Decoded)) (now k : String),
      lookupNonNeg (readMtecData m regs data now) k = true)
    ∧ readMtecData mapC5 ["11000", "11016", "consumption"] dataC5 "t" =
        [("consumption", .scalar (.pint (-100)))] := by
  constructor
  · intro m regs data now k
    unfold lookupNonNeg
    cases hl : (readMtecData m regs data now).lookup k with
    | none => rfl
    | some e =>
      cases e with
      | dict d => rfl
      | scalar v =>
        cases v with
        | pnone => rfl
        | pint n => rfl
        | pstr s => rfl
        | pfloat q =>
          simp only
          exact decide_eq_true (readMtecData_noNeg m regs data now k q hl)
  · decide

/-- Claim C6 (code bug): loading a catalog whose first entry lacks the
mandatory name also drops every following well-formed entry, because the
error flag is never reset; the older variant of the same loader keeps the
later entry, and the later entry alone does load. -/
theorem claim6_sticky_error_flag :
    initRegisterMap [("10000", rawNoName), ("10001", rawNamed)] = ([], [])
    ∧ initRegisterMapOld [("10000", rawNoName), ("10001", rawNamed)] =
        ([("10001", catNamed)], [])
    ∧ initRegisterMap [("10001", rawNamed)] = ([("10001", catNamed)], []) := by
  decide

/-- Counterexample to claim C7: insufficient words do not yield a
decode-error for an STR entry — `decode_string` slices without a bounds
check, so a two-word STR entry decodes successfully from an empty buffer
(empty string) and from a single word (truncated string), and the register
is returned, not treated as absent. -/
theorem claim7_counterexample :
    decodeRawdata [] 0 strC7 = some { name := "model", value := .pstr "", unit := "" }
    ∧ decodeRawdata [16706] 0 strC7 =
        some { name := "model", value := .pstr "AB", unit := "" }
    ∧ decodeRawdata [] 0 strC7 ≠ none := by
  decide

/-- Claim C7 as amended: an unknown wire type yields a decode-error result,
and so does a buffer shorter than the type needs for the fixed-size wire
types (U16, I16, U32, I32, BYTE, BIT, DAT, which read through struct
unpacking); an STR entry instead slices whatever bytes remain, so a short
buffer gives a truncated (possibly empty) string value, failing only on
invalid UTF-8. The batch loop turns exactly the failing registers into
absences while decoding and returning every other register of the
cluster. -/
theorem claim7_decode_failure_isolated :
    (∀ (raw : List Nat) (offset : Nat) (it : RegItem),
      (∀ t, it.type = some t → t ∉ knownWireTypes) →
      decodeRawdata raw offset it = none)
    ∧ (∀ (raw : List Nat) (offset : Nat) (it : RegItem) (n : Nat),
        requiredBytes it = some n → (toBytes (raw.drop offset)).length < n →
        decodeRawdata raw offset it = none)
    ∧ (∀ (raw : List Nat) (offset : Nat) (it : RegItem),
        it.type = some "STR" →
        (toBytes (raw.drop offset)).length ≤ it.length * 2 → it.scale ≤ 1 →
        decodeRawdata raw offset it =
          (bytesToStr (toBytes (raw.drop offset))).map
            (fun s => { name := it.name, value := .pstr s, unit := it.unit }))
    ∧ (∀ (start : Nat) (raw : List Nat) (items : List RegItem) (offset : Nat)
        (data : List (String × Decoded)),
        processClusterAux start raw items offset data =
          applyUpdates data (successEntries start raw items offset)) :=
  ⟨fun raw o it h =>
     decodeRawdata_none_of_preScale raw o it (preScaleValue_unknown raw o it h),
   fun raw o it n hreq hlen =>
     decodeRawdata_none_of_preScale raw o it (preScaleValue_short raw o it n hreq hlen),
   fun raw o it ht hlen hs => decodeRawdata_str_short raw o it ht hlen hs,
   fun start raw items offset data => processClusterAux_eq start raw items offset data⟩

/-- Witness for claim C7: the unknown type FOO fails to decode, a U32 read
from an empty buffer fails to decode, and a one-word buffer for a two-word
STR entry decodes to its truncated remainder. -/
theorem claim7_witness :
    (("FOO" : String) ∉ knownWireTypes)
    ∧ decodeRawdata [258] 0 itemFoo = none
    ∧ decodeRawdata [] 0 u32C3 = none
    ∧ decodeRawdata [16706] 0 strC7 =
        (bytesToStr (toBytes (([16706] : List Nat).drop 0))).map
          (fun s => { name := strC7.name, value := .pstr s, unit := strC7.unit }) :=
  ⟨by decide,
   claim7_decode_failure_isolated.1 [258] 0 itemFoo
     (fun t ht => by
        have h := Option.some.inj ht
        rw [← h]
        decide),
   claim7_decode_failure_isolated.2.1 [] 0 u32C3 4 rfl (by decide),
   claim7_decode_failure_isolated.2.2.1 [16706] 0 strC7 rfl (by decide) (by decide)⟩

/-- Counterexample to claim C8: a BYTE entry with scale 10 does not return
its formatted string "01 02"; the attempted division on the string makes the
decode fail entirely. -/
theorem claim8_counterexample :
    preScaleValue [258] 0 byteScale10 = some (.pstr "01 02")
    ∧ decodeRawdata [258] 0 byteScale10 = none
    ∧ decodeRawdata [258] 0 byteScale10 ≠
        some { name := byteScale10.name, value := .pstr "01 02",
               unit := byteScale10.unit } := by
  decide

/-- Claim C8 as amended: string-typed entries (BYTE, BIT, DAT, STR) return
the formatted string unaffected by scale only when scale ≤ 1; with
scale > 1 and a nonempty decoded string the division raises and the decode
fails, so a successful division by scale happens for numeric wire types
only. -/
theorem claim8_string_types_scale :
    (∀ (raw : List Nat) (offset : Nat) (it : RegItem),
      it.type ∈ [some "BYTE", some "BIT", some "DAT", some "STR"] →
      it.scale ≤ 1 →
      decodeRawdata raw offset it =
        (preScaleValue raw offset it).map
          (fun v => { name := it.name, value := v, unit := it.unit }))
    ∧ (∀ (raw : List Nat) (offset : Nat) (it : RegItem) (s : String),
        preScaleValue raw offset it = some (.pstr s) → s ≠ "" → 1 < it.scale →
        decodeRawdata raw offset it = none) :=
  ⟨fun raw o it _ hs => decodeRawdata_scale_le_one raw o it hs,
   fun raw o it s hv hsk hs => decodeRawdata_str_scale_fails raw o it s hv hsk hs⟩

/-- Witness for claim C8: the scale-1 BYTE entry returns its formatted
string, and the scale-10 BYTE entry fails to decode. -/
theorem claim8_witness :
    (byteScale1.type ∈ [some "BYTE", some "BIT", some "DAT", some "STR"])
    ∧ decodeRawdata [258] 0 byteScale1 =
        (preScaleValue [258] 0 byteScale1).map
          (fun v => { name := byteScale1.name, value := v, unit := byteScale1.unit })
    ∧ decodeRawdata [258] 0 byteScale10 = none :=
  ⟨by decide,
   claim8_string_types_scale.1 [258] 0 byteScale1 (by decide) (by decide),
   claim8_string_types_scale.2 [258] 0 byteScale10 "01 02" (by decide) (by decide)
     (by decide)⟩

/-- Counterexample to claim C9: the planner sorts ids as strings, not
numerically; with catalog addresses 99 and 100 the plan differs from the
numerically sorted walk the claim describes. -/
theorem claim9_counterexample :
    createRegisterClusters map99 ["99", "100"] ≠
      specNumericSortClusters map99 ["99", "100"] := by
  decide

/-- Claim C9 as amended: non-numeric ids and ids unknown to the catalog are
skipped and leave the clustering of the remaining ids unchanged, and the
planner processes ids in lexicographic string order (its result is the one
for the lexicographically sorted request), which coincides with numeric
order only when the decimal representations have equal digit counts. -/
theorem claim9_filter_and_order :
    (∀ (m : String → Option RegItem) (x : String) (regs : List String), m x = none →
      createRegisterClusters m (x :: regs) = createRegisterClusters m regs)
    ∧ (∀ (m : String → Option RegItem) (x : String) (regs : List String),
        isNumericStr x = false →
        createRegisterClusters m (x :: regs) = createRegisterClusters m regs)
    ∧ (∀ (m : String → Option RegItem) (regs : List String),
        createRegisterClusters m (sortStrings regs) = createRegisterClusters m regs) :=
  ⟨fun m x regs h => createRegisterClusters_skip m x regs (Or.inr h),
   fun m x regs h => createRegisterClusters_skip m x regs (Or.inl h),
   fun m regs => createRegisterClusters_perm m (sortStrings_perm regs)⟩

/-- Witness for claim C9: an id absent from the catalog and a non-numeric id
are both skipped without affecting the plan. -/
theorem claim9_witness :
    map99 "55" = none
    ∧ createRegisterClusters map99 ["55", "99", "100"] =
        createRegisterClusters map99 ["99", "100"]
    ∧ isNumericStr "consumption" = false
    ∧ createRegisterClusters map99 ["consumption", "99"] =
        createRegisterClusters map99 ["99"] :=
  ⟨by decide,
   claim9_filter_and_order.1 map99 "55" ["99", "100"] (by decide),
   by decide,
   claim9_filter_and_order.2.1 map99 "consumption" ["99"] (by decide)⟩

/-- Claim C10 (code bug): a pseudo-register outside the known derived
formulas is warned about, but the clamp then looks its never-assigned
publish key up, so the whole poll returns an empty snapshot instead of the
other registers; without the unknown pseudo-register the same poll returns
the decoded register. -/
theorem claim10_unknown_pseudo_aborts_poll :
    readMtecData mapC10 ["11000", "foo"] dataC10 "t" = []
    ∧ readMtecData mapC10 ["11000"] dataC10 "t" =
        [("house", .dict { name := "grid power", value := .pint 5, unit := "W" })] := by
  decide


end MTECmqtt
